import Mathlib

/-!
Verification of the browser-integration matching, access-control and ranking
engine of `src/src/browser/BrowserService.cpp`.

The development shallowly embeds the functions of `BrowserService.cpp` as
executable Lean definitions.  Qt collaborator classes (`QString`, `QUrl`,
`QHostAddress`) and repository classes whose sources are not part of the
source tree (`BrowserEntryConfig`, `CustomData`, `Group`, `Entry`) are
modelled; every model is documented at its definition.  Stateful code
(dialog interactions, the single-flight confirmation flag, database
custom-data persistence) is embedded via explicit state passing: the
outcome of a modal dialog becomes an explicit input describing what the
human did, and custom data becomes an association list threaded through.
-/

set_option maxRecDepth 10000

/-- Model of `QString`/`std::string` prefix test on character lists:
`listPfx p l` holds iff `p` is a prefix of `l`. -/
def listPfx : List Char → List Char → Bool
  | [], _ => true
  | _ :: _, [] => false
  | p :: ps, x :: xs => p == x && listPfx ps xs

/-- Substring occurrence test on character lists (helper for `strContains`). -/
def listSub (pat : List Char) : List Char → Bool
  | [] => listPfx pat []
  | x :: xs => listPfx pat (x :: xs) || listSub pat xs

/-- Model of `QString::contains(QString)`: note that, as in Qt, every string
contains the empty string. -/
def strContains (s pat : String) : Bool := listSub pat.data s.data

/-- Model of `QString::startsWith`. -/
def qstartsWith (s pat : String) : Bool := listPfx pat.data s.data

/-- Model of `QString::endsWith`. -/
def qendsWith (s pat : String) : Bool := listPfx pat.data.reverse s.data.reverse

/-- Split a character list at the first occurrence of `pat`, returning the
part before and the part after (helper for URL parsing). -/
def splitOnceList (pat : List Char) : List Char → Option (List Char × List Char)
  | [] => if listPfx pat [] then some ([], []) else none
  | x :: xs =>
    if listPfx pat (x :: xs) then some ([], (x :: xs).drop pat.length)
    else
      match splitOnceList pat xs with
      | some (a, b) => some (x :: a, b)
      | none => none

/-- Split a string at the first occurrence of `pat`. -/
def splitOnce (s pat : String) : Option (String × String) :=
  match splitOnceList pat.data s.data with
  | some (a, b) => some (⟨a⟩, ⟨b⟩)
  | none => none

/-- Model of `QString::split(QChar)` with `KeepEmptyParts`, on character
lists. -/
def splitListOn (c : Char) : List Char → List (List Char)
  | [] => [[]]
  | x :: xs =>
    let r := splitListOn c xs
    if x == c then [] :: r
    else
      match r with
      | h :: t => (x :: h) :: t
      | [] => [[x]]

/-- Model of `QString::split(QChar)` with `KeepEmptyParts`. -/
def splitOnChar (c : Char) (s : String) : List String :=
  (splitListOn c s.data).map (fun l => ⟨l⟩)

/-- ASCII lower-casing of one character (model of `QChar::toLower` on the
ASCII range used by hostnames in this development). -/
def charLower (c : Char) : Char :=
  if 65 ≤ c.toNat && c.toNat ≤ 90 then Char.ofNat (c.toNat + 32) else c

/-- ASCII lower-casing (model of `QString::toLower`). -/
def strLower (s : String) : String := ⟨s.data.map charLower⟩

/-- Decimal digit test. -/
def isDigitCh (c : Char) : Bool := 48 ≤ c.toNat && c.toNat ≤ 57

/-- Value of a decimal digit string. -/
def digitsToNat (l : List Char) : Nat := l.foldl (fun n c => 10 * n + (c.toNat - 48)) 0

/-- Parse a decimal port number; `none` when absent or malformed (models
`QUrl::port()` returning `-1`). -/
def parsePort (p : List Char) : Option Nat :=
  if !p.isEmpty && p.all isDigitCh then some (digitsToNat p) else none

/-- Model of `QString::chop`-style truncation: remove the last `n`
characters. -/
def qchop (s : String) (n : Nat) : String := ⟨s.data.take (s.data.length - n)⟩

/-- Model of `QUrl::toString(QUrl::StripTrailingSlash)`'s trailing-slash
removal: drop one trailing `/` if present. -/
def stripTrailingSlash (s : String) : String :=
  if qendsWith s "/" then ⟨s.data.dropLast⟩ else s

/-- First index of character `c` (model of `QString::indexOf(QChar)`). -/
def qindexOf (c : Char) : List Char → Option Nat
  | [] => none
  | x :: xs => if x == c then some 0 else (qindexOf c xs).map (· + 1)

/-- Model of Qt's `QUrl`, restricted to the URL shapes exercised by the
browser service: `scheme://host[:port][/path]` for absolute URLs, and
scheme-less strings, which `QUrl` parses as a relative reference with an
empty host and the whole string as path.  Query strings, fragments, user
info and IPv6 bracket syntax are outside the model's scope (none of the
inputs in this development use them, so `hasQuery`/`hasFragment` are
identically false). -/
structure QUrlT where
  scheme : String
  host : String
  port : Option Nat
  path : String
deriving DecidableEq

/-- Parse `host[:port]`; the host is lower-cased as `QUrl` does. -/
def parseAuthority (auth : String) : String × Option Nat :=
  match splitOnceList [':'] auth.data with
  | some (h, p) => (strLower ⟨h⟩, parsePort p)
  | none => (strLower auth, none)

/-- Model of the `QUrl` constructor on the shapes described at `QUrlT`. -/
def qurlOf (s : String) : QUrlT :=
  match splitOnce s "://" with
  | some (sch, rest) =>
    match splitOnce rest "/" with
    | some (auth, p) =>
      let hp := parseAuthority auth
      ⟨strLower sch, hp.fst, hp.snd, "/" ++ p⟩
    | none =>
      let hp := parseAuthority rest
      ⟨strLower sch, hp.fst, hp.snd, ""⟩
  | none => ⟨"", "", none, s⟩

/-- Model of `QUrl::fromUserInput` on bare hostnames and absolute URLs:
an input without a scheme separator is given the default `http` scheme. -/
def fromUserInput (s : String) : QUrlT :=
  if strContains s "://" then qurlOf s else qurlOf ("http://" ++ s)

/-- Render the optional port as `QUrl::toString` does. -/
def portPart (p : Option Nat) : String :=
  match p with
  | some n => ":" ++ toString n
  | none => ""

/-- Model of `QUrl::toString()`: the authority (`//host[:port]`) is emitted
only when a host is present, matching Qt's rendering of authority-less
URLs such as `https:intranet`. -/
def qurlToString (u : QUrlT) : String :=
  let auth := u.host ++ portPart u.port
  (if u.scheme == "" then "" else u.scheme ++ ":")
    ++ (if auth == "" then "" else "//" ++ auth) ++ u.path

/-- Dotted-quad decimal IPv4 literal test (model of `QHostAddress`
address-parsing success; IPv6 and exotic IPv4 spellings are outside the
scope of the inputs used here). -/
def isIPv4 (s : String) : Bool :=
  let parts := splitOnChar '.' s
  parts.length == 4 && parts.all (fun p =>
    !p.data.isEmpty && decide (p.data.length ≤ 3) && p.data.all isDigitCh
      && decide (digitsToNat p.data ≤ 255))

/-- Join labels with dots (inverse of `splitOnChar '.'`). -/
def joinDots : List String → String
  | [] => ""
  | [x] => x
  | x :: xs => x ++ "." ++ joinDots xs

/-- Model of Qt's embedded public-suffix list, restricted to the suffixes
exercised in this development. -/
def publicSuffixes : List String := ["com", "net", "org", "io", "uk", "co.uk", "de", "fi"]

/-- Model of `QUrl::topLevelDomain()`: the longest label-aligned suffix of
the lower-cased host that is on the public-suffix list, returned with a
leading dot; the empty string when no suffix is recognized (exactly Qt's
`qTopLevelDomain`, with `SkipEmptyParts` label splitting). -/
def topLevelDomain (host : String) : String :=
  let h := strLower host
  let labels := (splitOnChar '.' h).filter (fun l => !(l == ""))
  let cands := (List.range labels.length).filterMap (fun i =>
    let suf := joinDots (labels.drop i)
    if publicSuffixes.contains suf then some suf else none)
  match cands with
  | c :: _ => "." ++ c
  | [] => ""

/-- Embedding of `BrowserService::baseDomain`
(`src/src/browser/BrowserService.cpp:1042-1064`): IP literals are returned
unchanged; otherwise the top-level domain is chopped off the parsed host,
the last remaining label is taken and the top-level domain re-appended. -/
def baseDomain (hostname : String) : String :=
  let qurl := fromUserInput hostname
  let host := qurl.host
  if isIPv4 hostname then hostname
  else if host == "" || !(strContains host (topLevelDomain host)) then ""
  else
    let tld := topLevelDomain host
    (splitOnChar '.' (qchop host tld.data.length)).getLastD "" ++ tld

/-- Embedding of `BrowserService::removeFirstDomain`
(`src/src/browser/BrowserService.cpp:962-977`).  The C++ mutates its
argument and returns a `bool`; the model returns the pair
(return value, hostname after the call). -/
def removeFirstDomain (hostname : String) : Bool × String :=
  match qindexOf '.' hostname.data with
  | none => (false, hostname)
  | some pos =>
    if hostname.data.count '.' > 1 then
      let h : String := ⟨hostname.data.drop (pos + 1)⟩
      (!h.data.isEmpty, h)
    else (false, hostname)

/-- Custom-data / attribute key-value store (model of `CustomData` and
`EntryAttributes` read interfaces: an association list; `value` of a
missing key is the empty string, as for `QString` defaults). -/
def cdContains (cd : List (String × String)) (k : String) : Bool :=
  cd.any (fun p => p.fst == k)

/-- Value lookup with empty-string default (model of
`CustomData::value` / `EntryAttributes::value`). -/
def cdValue (cd : List (String × String)) (k : String) : String :=
  match cd.find? (fun p => p.fst == k) with
  | some p => p.snd
  | none => ""

/-- Model of `CustomData::set`: overwrite in place or append. -/
def cdSet (cd : List (String × String)) (k v : String) : List (String × String) :=
  if cdContains cd k then cd.map (fun p => if p.fst == k then (k, v) else p)
  else cd ++ [(k, v)]

/-- The pattern `contains(key) && value(key) == TRUE_STR` used for the
per-entry browser option flags. -/
def cdFlagSet (cd : List (String × String)) (k : String) : Bool :=
  cdContains cd k && cdValue cd k == "true"

/-- `BrowserService::ADDITIONAL_URL` (`KP2A_URL`). -/
def ADDITIONAL_URL : String := "KP2A_URL"

/-- `BrowserService::OPTION_HIDE_ENTRY`. -/
def OPTION_HIDE_ENTRY : String := "BrowserHideEntry"

/-- `BrowserService::OPTION_ONLY_HTTP_AUTH`. -/
def OPTION_ONLY_HTTP_AUTH : String := "BrowserOnlyHttpAuth"

/-- Modelled from the spec: `CustomData::BrowserKeyPrefix`, the per-store
custom-data key tag under which a client association's shared key is
persisted (`CustomData.cpp` is not part of the source tree; the spec
specifies a per-store `assoc:<label> -> sharedKey` map). -/
def browserKeyTag : String := "KPXC_BROWSER_"

/-- Modelled from the spec: the created-timestamp key
`QString("%1_%2").arg(CustomData::Created, id)` for an association
label (`CustomData.cpp` is not part of the source tree). -/
def createdKey (id : String) : String := "_CREATED" ++ "_" ++ id

/-- The `browserSettings()` values read by the embedded functions. -/
structure BrowserSettings where
  searchInAllDatabases : Bool
  matchUrlScheme : Bool
  alwaysAllowAccess : Bool
  httpAuthPermission : Bool
  allowExpiredCredentials : Bool
  sortByTitle : Bool
  bestMatchOnly : Bool
deriving DecidableEq

/-- Modelled from the spec: `BrowserEntryConfig` (its source
`BrowserEntryConfig.cpp` is not part of the source tree).  Per the spec it
is an access rule with `allowedHosts`, `deniedHosts` and an optional
`realm`, persisted per entry. -/
structure BrowserEntryConfig where
  allowedHosts : List String
  deniedHosts : List String
  realm : String
deriving DecidableEq

/-- Modelled from the spec: `isAllowed` is membership of the host in the
allow set. -/
def BrowserEntryConfig.isAllowed (c : BrowserEntryConfig) (h : String) : Bool :=
  c.allowedHosts.contains h

/-- Modelled from the spec: `isDenied` is membership of the host in the
deny set. -/
def BrowserEntryConfig.isDenied (c : BrowserEntryConfig) (h : String) : Bool :=
  c.deniedHosts.contains h

/-- Model of a credential entry (`Entry` of `core/Entry.h`, an external
collaborator): the fields read by `BrowserService.cpp`.  `browserConfig`
models the `BrowserEntryConfig` stored in the entry's custom data:
`config.load(entry)` returns false exactly when it is `none`. -/
structure Entry where
  url : String
  attributes : List (String × String)
  customData : List (String × String)
  browserConfig : Option BrowserEntryConfig
  isExpired : Bool
  recycled : Bool
deriving DecidableEq

/-- Model of a credential-store group tree (`Group` of `core/Group.h`, an
external collaborator).  `searchingEnabled` models the resolved
(inherited) value of `resolveSearchingEnabled`. -/
inductive KpGroup where
  | node (searchingEnabled : Bool) (recycled : Bool)
         (entries : List Entry) (children : List KpGroup)

/-- Effective searching flag of a group. -/
def KpGroup.searchingEnabled : KpGroup → Bool
  | .node s _ _ _ => s

/-- Recycle-bin membership of a group. -/
def KpGroup.recycled : KpGroup → Bool
  | .node _ r _ _ => r

/-- Entries directly inside a group. -/
def KpGroup.entries : KpGroup → List Entry
  | .node _ _ es _ => es

mutual

/-- Model of `Group::groupsRecursive(true)`: the group itself followed by
all descendants. -/
def groupsRecursive : KpGroup → List KpGroup
  | .node s r es cs => .node s r es cs :: groupsRecursiveList cs

/-- Descendant collection over a child list. -/
def groupsRecursiveList : List KpGroup → List KpGroup
  | [] => []
  | g :: gs => groupsRecursive g ++ groupsRecursiveList gs

end

/-- Model of a credential store (`Database`): the root group and the
store-level metadata custom data. -/
structure Database where
  rootGroup : Option KpGroup
  customData : List (String × String)

/-- Embedding of `BrowserService::handleURL`
(`src/src/browser/BrowserService.cpp:979-1035`). -/
def handleURL (s : BrowserSettings) (entryUrl url submitUrl : String) : Bool :=
  if entryUrl == "" then false
  else
    let entryQUrl :=
      if strContains entryUrl "://" then qurlOf entryUrl
      else
        let e := fromUserInput entryUrl
        if s.matchUrlScheme then { e with scheme := "https" } else e
    if strContains url "file://" then entryUrl == submitUrl
    else if entryQUrl.host == "" then false
    else
      let siteQUrl := qurlOf url
      if (match entryQUrl.port with | some p => decide (0 < p) | none => false)
          && !(entryQUrl.port == siteQUrl.port) then false
      else if s.matchUrlScheme && !(entryQUrl.scheme == "")
          && !(entryQUrl.scheme == siteQUrl.scheme) then false
      else if entryUrl.data.any
          (fun c => ([60, 62, 94, 96, 123, 124, 125].map Char.ofNat).contains c) then false
      else if !(baseDomain siteQUrl.host == baseDomain entryQUrl.host) then false
      else if qendsWith siteQUrl.host entryQUrl.host then true
      else false

/-- One step of the additional-URL attribute loop of the per-database
`BrowserService::searchEntries`
(`src/src/browser/BrowserService.cpp:567-573`): an attribute whose key
starts with `KP2A_URL` and whose value matches appends the entry unless
the result list already contains it. -/
def auxStep (s : BrowserSettings) (url submitUrl : String) (e : Entry)
    (a : List Entry) (kv : String × String) : List Entry :=
  if qstartsWith kv.fst ADDITIONAL_URL = true
      ∧ handleURL s kv.snd url submitUrl = true ∧ e ∉ a then a ++ [e]
  else a

/-- The additional-URL attribute loop over all attributes of one entry. -/
def auxUrlScan (s : BrowserSettings) (url submitUrl : String) (e : Entry)
    (acc : List Entry) : List Entry :=
  e.attributes.foldl (auxStep s url submitUrl e) acc

/-- Processing of one entry by the per-database scan
(`src/src/browser/BrowserService.cpp:561-580`): recycled entries are
skipped; the additional-URL loop runs first, then the primary URL is
tested and, when it matches, the entry is appended (note: with no
containment guard). -/
def scanEntry (s : BrowserSettings) (url submitUrl : String)
    (acc : List Entry) (e : Entry) : List Entry :=
  if e.recycled then acc
  else
    let acc1 := auxUrlScan s url submitUrl e acc
    if handleURL s e.url url submitUrl then acc1 ++ [e] else acc1

/-- Processing of one group by the per-database scan
(`src/src/browser/BrowserService.cpp:556-581`): recycled groups and groups
with searching disabled are skipped. -/
def scanGroup (s : BrowserSettings) (url submitUrl : String)
    (acc : List Entry) (g : KpGroup) : List Entry :=
  if g.recycled || !g.searchingEnabled then acc
  else g.entries.foldl (scanEntry s url submitUrl) acc

/-- Embedding of the per-database
`BrowserService::searchEntries(db, url, submitUrl)`
(`src/src/browser/BrowserService.cpp:547-584`). -/
def searchEntriesDb (s : BrowserSettings) (db : Database)
    (url submitUrl : String) : List Entry :=
  match db.rootGroup with
  | none => []
  | some root => (groupsRecursive root).foldl (scanGroup s url submitUrl) []

/-- The `databaseConnected` lambda of the multi-database `searchEntries`
(`src/src/browser/BrowserService.cpp:589-597`): some pair of the client
key list matches a non-empty persisted store key. -/
def databaseConnected (keyList : List (String × String)) (db : Database) : Bool :=
  keyList.any (fun kp =>
    let key := cdValue db.customData (browserKeyTag ++ kp.fst)
    !(key == "") && kp.snd == key)

/-- Store selection of the multi-database `searchEntries`
(`src/src/browser/BrowserService.cpp:599-613`): all open connected stores,
or just the connected current store. -/
def eligibleDatabases (s : BrowserSettings) (openDbs : List Database)
    (currentDb : Option Database) (keyList : List (String × String)) : List Database :=
  if s.searchInAllDatabases then openDbs.filter (databaseConnected keyList)
  else
    match currentDb with
    | some db => if databaseConnected keyList db then [db] else []
    | none => []

/-- One full multi-store pass of the search loop body
(`src/src/browser/BrowserService.cpp:619-621`). -/
def scanDatabases (s : BrowserSettings) (dbs : List Database)
    (url submitUrl : String) : List Entry :=
  dbs.foldl (fun acc db => acc ++ searchEntriesDb s db url submitUrl) []

/-- Embedding of the `do { ... } while (entries.isEmpty() &&
removeFirstDomain(hostname))` loop of the multi-database `searchEntries`
(`src/src/browser/BrowserService.cpp:616-622`).  `fuel` bounds the number
of relaxation iterations; the caller passes the hostname length, which
dominates the number of labels that can ever be stripped.  As in the
source, each iteration scans with the unchanged `url` and `submitUrl`
arguments; `hostname` is only consulted by the loop condition. -/
def searchEntriesLoop (s : BrowserSettings) (dbs : List Database)
    (url submitUrl : String) (hostname : String) (fuel : Nat) : List Entry :=
  let entries := scanDatabases s dbs url submitUrl
  if entries.isEmpty then
    match fuel with
    | 0 => entries
    | Nat.succ f =>
      let r := removeFirstDomain hostname
      if r.fst then searchEntriesLoop s dbs url submitUrl r.snd f else entries
  else entries

/-- Embedding of the multi-database
`BrowserService::searchEntries(url, submitUrl, keyList)`
(`src/src/browser/BrowserService.cpp:586-625`). -/
def searchEntriesMulti (s : BrowserSettings) (openDbs : List Database)
    (currentDb : Option Database) (url submitUrl : String)
    (keyList : List (String × String)) : List Entry :=
  let dbs := eligibleDatabases s openDbs currentDb keyList
  let hostname := (qurlOf url).host
  searchEntriesLoop s dbs url submitUrl hostname hostname.data.length

/-- The tri-state verdict `BrowserService::Access`. -/
inductive Access where
  | Denied
  | Allowed
  | Unknown
deriving DecidableEq

/-- Embedding of `BrowserService::checkAccess`
(`src/src/browser/BrowserService.cpp:850-870`). -/
def checkAccess (s : BrowserSettings) (entry : Entry)
    (host submitHost realm : String) : Access :=
  match entry.browserConfig with
  | none => Access.Unknown
  | some config =>
    if entry.isExpired then
      if s.allowExpiredCredentials then Access.Allowed else Access.Denied
    else if config.isAllowed host && (submitHost == "" || config.isAllowed submitHost) then
      Access.Allowed
    else if config.isDenied host || (!(submitHost == "") && config.isDenied submitHost) then
      Access.Denied
    else if !(realm == "") && !(config.realm == realm) then
      Access.Denied
    else Access.Unknown

/-- The normalized `QUrl` built at the top of `BrowserService::sortPriority`
(`src/src/browser/BrowserService.cpp:903-911`): parse the entry URL,
default a missing scheme to `https`, and add the `/` path when path, query
and fragment are all absent (queries and fragments are outside the URL
model's scope, see `QUrlT`). -/
def sortPriorityUrl (e : Entry) : QUrlT :=
  let url0 := qurlOf e.url
  let url1 := if url0.scheme == "" then { url0 with scheme := "https" } else url0
  if url1.path == "" then { url1 with path := "/" } else url1

/-- `entryURL` of `BrowserService::sortPriority`
(`src/src/browser/BrowserService.cpp:913`). -/
def entryURLOf (e : Entry) : String :=
  stripTrailingSlash (qurlToString (sortPriorityUrl e))

/-- `baseEntryURL` of `BrowserService::sortPriority`
(`src/src/browser/BrowserService.cpp:914-915`): the URL with path, query
and fragment removed. -/
def baseEntryURLOf (e : Entry) : String :=
  stripTrailingSlash (qurlToString { sortPriorityUrl e with path := "" })

/-- Embedding of `BrowserService::sortPriority`
(`src/src/browser/BrowserService.cpp:898-954`). -/
def sortPriority (e : Entry) (host submitUrl baseSubmitUrl : String) : Nat :=
  if !(strContains (sortPriorityUrl e).host ".") && ¬((sortPriorityUrl e).host = "localhost") then 0
  else if submitUrl = entryURLOf e then 100
  else if qstartsWith submitUrl (entryURLOf e) = true ∧ ¬(entryURLOf e = host)
      ∧ ¬(baseSubmitUrl = entryURLOf e) then 90
  else if qstartsWith submitUrl (baseEntryURLOf e) = true ∧ ¬(entryURLOf e = host)
      ∧ ¬(baseSubmitUrl = baseEntryURLOf e) then 80
  else if entryURLOf e = host then 70
  else if entryURLOf e = baseSubmitUrl then 60
  else if qstartsWith (entryURLOf e) submitUrl then 50
  else if qstartsWith (entryURLOf e) baseSubmitUrl = true ∧ ¬(baseSubmitUrl = host) then 40
  else if qstartsWith submitUrl (entryURLOf e) then 30
  else if qstartsWith submitUrl (baseEntryURLOf e) then 20
  else if qstartsWith (entryURLOf e) host then 10
  else if qstartsWith host (entryURLOf e) then 5
  else 0

/-- Attribute lookup used for the within-bucket sort (`Title` and
`UserName` live in the entry attributes). -/
def attrValue (e : Entry) (k : String) : String := cdValue e.attributes k

/-- Code-point lexicographic strict order on character lists (model of
`QString::localeAwareCompare(...) < 0`; locale tailoring is outside the
model's scope). -/
def listLt : List Char → List Char → Bool
  | [], [] => false
  | [], _ :: _ => true
  | _ :: _, [] => false
  | x :: xs, y :: ys => x.toNat < y.toNat || (x == y && listLt xs ys)

/-- The comparator of the within-bucket `std::sort`
(`src/src/browser/BrowserService.cpp:723-732`): by the configured field,
tie-broken by `UserName`. -/
def entrySortLt (field : String) (l r : Entry) : Bool :=
  listLt (attrValue l field).data (attrValue r field).data
    || ((attrValue l field) == (attrValue r field)
        && listLt (attrValue l "UserName").data (attrValue r "UserName").data)

/-- Ordered insertion (helper modelling `std::sort` by insertion sort). -/
def insertOrd (lt : Entry → Entry → Bool) (x : Entry) : List Entry → List Entry
  | [] => [x]
  | y :: ys => if lt x y then x :: y :: ys else y :: insertOrd lt x ys

/-- Insertion sort modelling the deterministic outcome of `std::sort` with
the bucket comparator. -/
def sortByCmp (lt : Entry → Entry → Bool) (l : List Entry) : List Entry :=
  l.foldr (insertOrd lt) []

/-- The descending priority buckets `100, 95, ..., 0` iterated by
`sortEntries` (`src/src/browser/BrowserService.cpp:719`). -/
def priorityBuckets : List Nat := (List.range 21).map (fun i => 100 - 5 * i)

/-- The bucket loop of `BrowserService::sortEntries`
(`src/src/browser/BrowserService.cpp:719-739`), including the
best-match-only early exit. -/
def sortEntriesGo (s : BrowserSettings) (field : String) (pwEntries : List Entry)
    (host submitUrl baseSubmitUrl : String) : List Nat → List Entry
  | [] => []
  | i :: rest =>
    let bucket := pwEntries.filter (fun e => sortPriority e host submitUrl baseSubmitUrl == i)
    if bucket.length > 0 then
      sortByCmp (entrySortLt field) bucket
        ++ (if s.bestMatchOnly && !pwEntries.isEmpty then []
            else sortEntriesGo s field pwEntries host submitUrl baseSubmitUrl rest)
    else sortEntriesGo s field pwEntries host submitUrl baseSubmitUrl rest

/-- Embedding of `BrowserService::sortEntries`
(`src/src/browser/BrowserService.cpp:700-742`). -/
def sortEntries (s : BrowserSettings) (pwEntries : List Entry)
    (host entryUrl : String) : List Entry :=
  let url0 := qurlOf entryUrl
  let url := if url0.scheme == "" then { url0 with scheme := "https" } else url0
  let submitUrl := stripTrailingSlash (qurlToString url)
  let baseSubmitUrl := stripTrailingSlash (qurlToString { url with path := "" })
  let field := if s.sortByTitle then "Title" else "UserName"
  sortEntriesGo s field pwEntries host submitUrl baseSubmitUrl priorityBuckets

/-- The single-flight confirmation flag `m_dialogActive` of
`BrowserService` (its only state bit relevant to this development). -/
structure ServiceState where
  dialogActive : Bool
deriving DecidableEq

/-- Kinds of persisted access-rule writes performed around the
confirmation dialog. -/
inductive WriteKind where
  | deny
  | allow
deriving DecidableEq

/-- Explicit description of what the human did with the
`BrowserAccessControlDialog` while it was open: whether `exec()` ended in
`QDialog::Accepted` (a rejection also covers cancellation, a
`databaseLocked` signal or an `activeDatabaseChanged` signal, both of
which `reject()` the dialog), which rows were selected, the remember
flag, and the rows for which the `disableAccess` signal fired. -/
structure AccessDialogOutcome where
  accepted : Bool
  selectedRows : List Nat
  remember : Bool
  disabledRows : List Nat

/-- Result of `BrowserService::confirmEntries`: the post-call service
state, the returned allowed entries, whether a dialog was actually shown,
and the access-rule writes persisted during the interaction. -/
structure ConfirmResult where
  state : ServiceState
  allowed : List Entry
  promptShown : Bool
  writes : List (Entry × WriteKind)
deriving DecidableEq

/-- Embedding of `BrowserService::confirmEntries`
(`src/src/browser/BrowserService.cpp:744-812`): an empty confirmation set
or an already-active dialog returns the empty list immediately; otherwise
the flag is raised, the dialog outcome is consumed (deny writes for
`disableAccess` rows; on acceptance the selected rows are collected, with
allow writes when remembering), and the flag is lowered on the way out. -/
def confirmEntries (st : ServiceState) (pwEntriesToConfirm : List Entry)
    (url host submitHost realm : String) (httpAuth : Bool)
    (dlg : AccessDialogOutcome) : ConfirmResult :=
  if pwEntriesToConfirm.isEmpty || st.dialogActive then
    ⟨st, [], false, []⟩
  else
    let denyWrites := dlg.disabledRows.filterMap
      (fun r => (pwEntriesToConfirm.get? r).map (fun e => (e, WriteKind.deny)))
    let allowedEntries :=
      if dlg.accepted then dlg.selectedRows.filterMap (fun r => pwEntriesToConfirm.get? r)
      else []
    let allowWrites :=
      if dlg.accepted && dlg.remember then allowedEntries.map (fun e => (e, WriteKind.allow))
      else []
    ⟨⟨false⟩, allowedEntries, true, denyWrites ++ allowWrites⟩

/-- The per-entry partition step of `BrowserService::findMatchingEntries`
(`src/src/browser/BrowserService.cpp:364-397`): hidden entries and
non-HTTP-auth-only mismatches are dropped; HTTP Basic Auth routes to
confirmation when not globally ignored; otherwise the verdict decides.
The pair is (auto-allowed entries, entries to confirm). -/
def partitionStep (s : BrowserSettings) (host submitHost realm : String)
    (httpAuth : Bool) (p : List Entry × List Entry) (entry : Entry) :
    List Entry × List Entry :=
  if cdFlagSet entry.customData OPTION_HIDE_ENTRY then p
  else if !httpAuth && cdFlagSet entry.customData OPTION_ONLY_HTTP_AUTH then p
  else if !s.httpAuthPermission && httpAuth then (p.fst, p.snd ++ [entry])
  else
    match checkAccess s entry host submitHost realm with
    | Access.Denied => p
    | Access.Unknown =>
      if s.alwaysAllowAccess then (p.fst ++ [entry], p.snd) else (p.fst, p.snd ++ [entry])
    | Access.Allowed => (p.fst ++ [entry], p.snd)

/-- Embedding of `BrowserService::findMatchingEntries`
(`src/src/browser/BrowserService.cpp:348-424`).  The two moments at which
the GUI can interleave are explicit inputs: `dlg` describes the
confirmation dialog's outcome and `dbOpenAfterPrompt` is the value of
`isDatabaseOpened()` when the dialog has closed (the database may have
been locked while the popup was visible).  The serialization of entries
to JSON (`prepareEntry`) is beyond the result list's content and is
omitted: the function returns the post-state and the final entry list. -/
def findMatchingEntries (s : BrowserSettings) (st : ServiceState)
    (openDbs : List Database) (currentDb : Option Database)
    (url submitUrl realm : String) (keyList : List (String × String))
    (httpAuth : Bool) (dlg : AccessDialogOutcome) (dbOpenAfterPrompt : Bool) :
    ServiceState × List Entry :=
  let host := (qurlOf url).host
  let submitHost := (qurlOf submitUrl).host
  let found := searchEntriesMulti s openDbs currentDb url submitUrl keyList
  let part := found.foldl (partitionStep s host submitHost realm httpAuth) ([], [])
  let cres := confirmEntries st part.snd url host submitHost realm httpAuth dlg
  let pwEntries := if cres.allowed.isEmpty then part.fst else part.fst ++ cres.allowed
  if pwEntries.isEmpty then (cres.state, [])
  else if !dbOpenAfterPrompt then (cres.state, [])
  else (cres.state, sortEntries s pwEntries host submitUrl)

/-- Explicit description of one round of the `storeKey` association loop
(`src/src/browser/BrowserService.cpp:297-329`): the label dialog's
outcome (`accepted` is false when the dialog was cancelled or rejected by
a `databaseLocked` signal), the entered label, whether the database was
still open when the dialog closed, and the answer the user would give to
the overwrite prompt (`true` = `Overwrite`, `false` = `Cancel`; consulted
only when the label already has a key). -/
structure KeyRound where
  accepted : Bool
  text : String
  dbOpen : Bool
  overwrite : Bool

/-- Embedding of `BrowserService::storeKey`
(`src/src/browser/BrowserService.cpp:286-336`).  The database metadata
custom data is threaded explicitly; the interaction script is a list of
rounds, and `none` means the script ran out while the loop still wanted
another round (the interaction is still pending, no completed outcome).
On cancellation the empty identifier is returned with the store
untouched; on completion the key and the created timestamp are persisted
under the chosen label, which is returned. -/
def storeKey (key now : String) (db : List (String × String)) :
    List KeyRound → Option (String × List (String × String))
  | [] => none
  | r :: rest =>
    let id := r.text
    if !r.accepted || id == "" || !r.dbOpen then some ("", db)
    else if cdContains db (browserKeyTag ++ id) && !r.overwrite then
      storeKey key now db rest
    else
      some (id, cdSet (cdSet db (browserKeyTag ++ id) key) (createdKey id) now)

/-- Settings used by the concrete scenarios: single-database search,
strict scheme matching, no always-allow, HTTP-auth confirmation required,
expired credentials not allowed, sort by title, no best-match-only. -/
def demoSettings : BrowserSettings := ⟨false, true, false, false, false, true, false⟩

/-- An entry without a stored browser configuration but expired. -/
def noCfgEntry : Entry := ⟨"https://example.com", [], [], none, true, false⟩

/-- Access rule allowing `example.com` with stored realm `realmB`. -/
def c3config : BrowserEntryConfig := ⟨["example.com"], [], "realmB"⟩

/-- Non-expired entry carrying `c3config`. -/
def c3entry : Entry := ⟨"https://example.com", [], [], some c3config, false, false⟩

/-- A plain entry used in the confirmation scenarios. -/
def demoEntry : Entry := ⟨"https://example.com/login", [], [], none, false, false⟩

/-- A dialog outcome approving the first row without remembering. -/
def demoDialog : AccessDialogOutcome := ⟨true, [0], false, []⟩

/-- An entry whose URL matches nothing under `example.com` requests. -/
def c1entry : Entry := ⟨"https://other.org/login", [], [], none, false, false⟩

/-- A connected database containing only `c1entry`. -/
def c1db : Database :=
  ⟨some (.node true false [c1entry] []), [("KPXC_BROWSER_cid", "sharedkey")]⟩

/-- Entry whose primary URL and whose `KP2A_URL` auxiliary attribute both
match requests on `example.com`. -/
def c4entry : Entry :=
  ⟨"https://example.com", [("KP2A_URL", "https://example.com")], [], none, false, false⟩

/-- Database with a single searchable group holding `c4entry` once. -/
def c4db : Database := ⟨some (.node true false [c4entry] []), []⟩

/-- Entry whose URL equals the dotless-host submit URL exactly. -/
def c6entry1 : Entry := ⟨"https://intranet/login", [], [], none, false, false⟩

/-- Entry whose URL is a proper prefix of the dotless-host submit URL. -/
def c6entry2 : Entry := ⟨"https://intranet", [], [], none, false, false⟩

/-- Entry whose URL equals the dotted-host submit URL exactly. -/
def c6entry3 : Entry := ⟨"https://mail.example.com/login", [], [], none, false, false⟩

/-- Entry whose URL is a proper prefix of the dotted-host submit URL. -/
def c6entry4 : Entry := ⟨"https://mail.example.com", [], [], none, false, false⟩

/-- A store already holding a key under the association label `chrome`. -/
def c7db : List (String × String) := [("KPXC_BROWSER_chrome", "oldkey")]

/-- Association interaction: the user picks the colliding label `chrome`,
declines the overwrite prompt, then cancels the label dialog. -/
def c7rounds : List KeyRound :=
  [⟨true, "chrome", true, false⟩, ⟨false, "", true, false⟩]

/-- Number of occurrences of an entry across all groups of a store (in the
program, entry objects are owned by exactly one group, so a pointer occurs
at most once; the count makes that aliasing assumption explicit). -/
def dbEntryOccurrences (db : Database) (e : Entry) : Nat :=
  match db.rootGroup with
  | none => 0
  | some root => ((groupsRecursive root).map (fun g => g.entries.count e)).sum

/-- Claim C9: an entry with no stored browser configuration is classified
`Unknown` by `checkAccess`, whatever the other arguments — in particular
the expiration check is only reached once a configuration was loaded. -/
theorem checkAccess_no_config_unknown :
    ∀ (s : BrowserSettings) (entry : Entry) (host submitHost realm : String),
      entry.browserConfig = none →
      checkAccess s entry host submitHost realm = Access.Unknown := by
  intro s entry host submitHost realm h
  simp [checkAccess, h]

/-- Witness for C9: a concrete expired, configuration-less entry is
`Unknown` (not `Denied`) although expired credentials are disallowed. -/
theorem checkAccess_no_config_unknown_witness :
    noCfgEntry.isExpired = true ∧ demoSettings.allowExpiredCredentials = false ∧
      checkAccess demoSettings noCfgEntry "example.com" "" "realmA" = Access.Unknown :=
  ⟨rfl, rfl, checkAccess_no_config_unknown demoSettings noCfgEntry "example.com" "" "realmA" rfl⟩

/-- Claim C3: for a non-expired entry whose rule allows the request host
(and the submit host, when one is present), `checkAccess` answers
`Allowed` for every requested realm — the realm-mismatch denial comes
after the allow-by-host check and can never override it. -/
theorem checkAccess_allow_dominates_realm :
    ∀ (s : BrowserSettings) (entry : Entry) (config : BrowserEntryConfig)
      (host submitHost realm : String),
      entry.browserConfig = some config →
      entry.isExpired = false →
      config.isAllowed host = true →
      (submitHost = "" ∨ config.isAllowed submitHost = true) →
      checkAccess s entry host submitHost realm = Access.Allowed := by
  intro s entry config host submitHost realm hcfg hexp hallow hsub
  rcases hsub with h2 | h2 <;> simp [checkAccess, hcfg, hexp, hallow, h2]

/-- Witness for C3: a concrete allowed host with a requested realm that
differs from the stored realm still yields `Allowed`. -/
theorem checkAccess_allow_dominates_realm_witness :
    ¬(("realmA" : String) = "") ∧ ¬(c3config.realm = "realmA") ∧
      checkAccess demoSettings c3entry "example.com" "" "realmA" = Access.Allowed :=
  ⟨by decide, by decide,
    checkAccess_allow_dominates_realm demoSettings c3entry c3config "example.com" "" "realmA"
      rfl rfl (by decide) (Or.inl rfl)⟩

/-- Claim C2: `confirmEntries` is single-flight — invoked while the
dialog-active flag is set it returns the empty list immediately, shows no
prompt and leaves the state untouched; and from an inactive state every
exit path (empty set, approval, rejection, lock-triggered rejection)
leaves the flag cleared. -/
theorem confirmEntries_single_flight :
    ∀ (st : ServiceState) (toConfirm : List Entry) (url host submitHost realm : String)
      (httpAuth : Bool) (dlg : AccessDialogOutcome),
      (st.dialogActive = true →
        confirmEntries st toConfirm url host submitHost realm httpAuth dlg = ⟨st, [], false, []⟩)
      ∧ (st.dialogActive = false →
        (confirmEntries st toConfirm url host submitHost realm httpAuth dlg).state.dialogActive
          = false) := by
  intro st toConfirm url host submitHost realm httpAuth dlg
  constructor
  · intro h
    simp [confirmEntries, h]
  · intro h
    by_cases he : toConfirm.isEmpty <;> simp [confirmEntries, he, h]

/-- Witness for C2: with a busy flag the concrete call returns nothing and
changes nothing; with a free flag the flag ends cleared. -/
theorem confirmEntries_single_flight_witness :
    confirmEntries ⟨true⟩ [demoEntry] "https://example.com/login" "example.com" "" "" false
        demoDialog = ⟨⟨true⟩, [], false, []⟩
      ∧ (confirmEntries ⟨false⟩ [demoEntry] "https://example.com/login" "example.com" "" "" false
        demoDialog).state.dialogActive = false :=
  ⟨(confirmEntries_single_flight ⟨true⟩ [demoEntry] "https://example.com/login" "example.com"
      "" "" false demoDialog).1 rfl,
   (confirmEntries_single_flight ⟨false⟩ [demoEntry] "https://example.com/login" "example.com"
      "" "" false demoDialog).2 rfl⟩

/-- Claim C10: when the database is no longer open once the confirmation
step has completed, `findMatchingEntries` returns the empty list — the
auto-allowed entries are discarded together with the confirmed ones. -/
theorem findMatchingEntries_locked_empty :
    ∀ (s : BrowserSettings) (st : ServiceState) (openDbs : List Database)
      (currentDb : Option Database) (url submitUrl realm : String)
      (keyList : List (String × String)) (httpAuth : Bool) (dlg : AccessDialogOutcome),
      (findMatchingEntries s st openDbs currentDb url submitUrl realm keyList httpAuth
        dlg false).snd = [] := by
  intro s st openDbs currentDb url submitUrl realm keyList httpAuth dlg
  unfold findMatchingEntries
  split
  · simp only [ite_self]
  · next h => exact absurd rfl h

/-- A character that `qindexOf` does not find is not in the list. -/
theorem qindexOf_none_not_mem (c : Char) :
    ∀ l : List Char, qindexOf c l = none → c ∉ l := by
  intro l
  induction l with
  | nil => intro _ hm; exact absurd hm (List.not_mem_nil c)
  | cons x xs ih =>
    intro hq hm
    rw [qindexOf] at hq
    by_cases hx : (x == c) = true
    · rw [if_pos hx] at hq; exact absurd hq (by simp)
    · rw [if_neg hx, Option.map_eq_none'] at hq
      rcases List.mem_cons.mp hm with h | h
      · exact hx (beq_iff_eq.mpr h.symm)
      · exact ih hq h

/-- Decomposition delivered by a successful `qindexOf`: the list splits at
the first occurrence of the character. -/
theorem qindexOf_split (c : Char) :
    ∀ (l : List Char) (pos : Nat), qindexOf c l = some pos →
      l = l.take pos ++ c :: l.drop (pos + 1) ∧ c ∉ l.take pos := by
  intro l
  induction l with
  | nil => intro pos h; simp [qindexOf] at h
  | cons x xs ih =>
    intro pos h
    by_cases hx : (x == c) = true
    · rw [qindexOf, if_pos hx] at h
      have hpos : pos = 0 := by simpa using h.symm
      subst hpos
      have hxc : x = c := beq_iff_eq.mp hx
      subst hxc
      simp
    · rw [qindexOf, if_neg hx] at h
      match hq : qindexOf c xs with
      | none => rw [hq] at h; simp at h
      | some p =>
        rw [hq] at h
        have hpos : pos = p + 1 := by simpa using h.symm
        subst hpos
        obtain ⟨h1, h2⟩ := ih p hq
        constructor
        · simpa [List.take_succ_cons, List.drop_succ_cons] using congrArg (x :: ·) h1
        · intro hm
          rcases List.mem_cons.mp hm with hcx | hcx
          · exact absurd (beq_iff_eq.mpr hcx.symm) (by simpa using hx)
          · exact h2 hcx

/-- Claim C8: `removeFirstDomain` strips exactly the left-most label (the
dot-free prefix up to the first dot) and answers true when the hostname
has more than one dot, the remainder still containing a dot (so a
second-level domain is never reduced to a bare top-level domain); with at
most one dot it answers false and leaves the hostname unchanged; the
concrete chain `a.b.c.d -> b.c.d -> c.d -> stop` is computed. -/
theorem removeFirstDomain_spec :
    ∀ h : String,
      (h.data.count '.' > 1 →
        ∃ pre post : List Char, h.data = pre ++ '.' :: post ∧ '.' ∉ pre ∧
          removeFirstDomain h = (true, ⟨post⟩) ∧ 1 ≤ post.count '.')
      ∧ (h.data.count '.' ≤ 1 → removeFirstDomain h = (false, h))
      ∧ removeFirstDomain "a.b.c.d" = (true, "b.c.d")
      ∧ removeFirstDomain "b.c.d" = (true, "c.d")
      ∧ removeFirstDomain "c.d" = (false, "c.d") := by
  intro h
  refine ⟨?_, ?_, by decide, by decide, by decide⟩
  · intro hc
    match hq : qindexOf '.' h.data with
    | none =>
      exact absurd (List.count_pos_iff.mp (by omega)) (qindexOf_none_not_mem '.' h.data hq)
    | some pos =>
      obtain ⟨hsplit, hnotmem⟩ := qindexOf_split '.' h.data pos hq
      have hcpre : (h.data.take pos).count '.' = 0 := List.count_eq_zero.mpr hnotmem
      have hcpost : 1 ≤ (h.data.drop (pos + 1)).count '.' := by
        have hcc := hc
        rw [hsplit, List.count_append, List.count_cons_self, hcpre] at hcc
        omega
      have hne : (h.data.drop (pos + 1)).isEmpty = false := by
        cases hd : h.data.drop (pos + 1) with
        | nil => rw [hd] at hcpost; simp at hcpost
        | cons a as => rfl
      refine ⟨h.data.take pos, h.data.drop (pos + 1), hsplit, hnotmem, ?_, hcpost⟩
      simp only [removeFirstDomain, hq, if_pos hc]
      simp [hne]
  · intro hc
    match hq : qindexOf '.' h.data with
    | none => simp only [removeFirstDomain, hq]
    | some pos =>
      simp only [removeFirstDomain, hq]
      rw [if_neg (by omega)]

/-- Witness for C8: the decomposition and the stop behaviour on the
concrete chain starting from `a.b.c.d`. -/
theorem removeFirstDomain_spec_witness :
    removeFirstDomain "a.b" = (false, "a.b")
      ∧ (∃ pre post : List Char, ("a.b.c.d" : String).data = pre ++ '.' :: post ∧ '.' ∉ pre ∧
          removeFirstDomain "a.b.c.d" = (true, ⟨post⟩) ∧ 1 ≤ post.count '.') :=
  ⟨(removeFirstDomain_spec "a.b").2.1 (by decide),
   (removeFirstDomain_spec "a.b.c.d").1 (by decide)⟩

/-- Claim C7: a completed `storeKey` interaction either ends in
cancellation — empty identifier, store byte-for-byte unchanged, so no
key and no created timestamp were persisted and the original key under
any colliding label is intact — or ends with the chosen non-empty label
returned and exactly the key plus created-timestamp writes applied; in
the latter case the label either had no persisted key or the user
explicitly approved the overwrite in some round, so declining the
overwrite prompt never overwrites. -/
theorem storeKey_cancel_atomic :
    ∀ (key now : String) (db : List (String × String)) (rounds : List KeyRound)
      (id : String) (db' : List (String × String)),
      storeKey key now db rounds = some (id, db') →
      (id = "" ∧ db' = db)
      ∨ (¬(id = "")
          ∧ db' = cdSet (cdSet db (browserKeyTag ++ id) key) (createdKey id) now
          ∧ (cdContains db (browserKeyTag ++ id) = false
             ∨ ∃ r ∈ rounds, r.accepted = true ∧ r.text = id ∧ r.overwrite = true)) := by
  intro key now db rounds
  induction rounds with
  | nil => intro id db' hrun; simp [storeKey] at hrun
  | cons r rest ih =>
    intro id db' hrun
    rw [storeKey] at hrun
    split at hrun
    · left
      have := Option.some.inj hrun
      exact ⟨(Prod.mk.injEq _ _ _ _ ▸ this).1.symm, (Prod.mk.injEq _ _ _ _ ▸ this).2.symm⟩
    · next hcancel =>
      split at hrun
      · rcases ih id db' hrun with hl | ⟨hne, hdb, hcon⟩
        · exact Or.inl hl
        · refine Or.inr ⟨hne, hdb, ?_⟩
          rcases hcon with hc | ⟨r', hr', hrest⟩
          · exact Or.inl hc
          · exact Or.inr ⟨r', List.mem_cons_of_mem r hr', hrest⟩
      · next hpersist =>
        have hinj := Option.some.inj hrun
        have hid : id = r.text := ((Prod.mk.injEq _ _ _ _ ▸ hinj).1).symm
        have hdb : db' = cdSet (cdSet db (browserKeyTag ++ r.text) key)
            (createdKey r.text) now := ((Prod.mk.injEq _ _ _ _ ▸ hinj).2).symm
        have hflags : r.accepted = true ∧ ¬(r.text = "") ∧ r.dbOpen = true := by
          have h3 := by simpa [not_or] using hcancel
          exact ⟨h3.1.1, h3.1.2, h3.2⟩
        subst hid
        refine Or.inr ⟨hflags.2.1, hdb, ?_⟩
        by_cases hcontains : cdContains db (browserKeyTag ++ r.text) = true
        · have hov : r.overwrite = true := by
            by_contra hov
            exact hpersist (by simp [hcontains, Bool.eq_false_iff.mpr hov])
          exact Or.inr ⟨r, List.mem_cons_self r rest, hflags.1, rfl, hov⟩
        · exact Or.inl (Bool.eq_false_iff.mpr hcontains)

/-- Witness for C7: the user picks the colliding label `chrome`, declines
the overwrite, then cancels — the returned identifier is empty and the
store (including the original key for `chrome`) is unchanged. -/
theorem storeKey_cancel_atomic_witness :
    (("" : String) = "" ∧ c7db = c7db)
      ∨ (¬(("" : String) = "")
          ∧ c7db = cdSet (cdSet c7db (browserKeyTag ++ "") "newkey") (createdKey "") "ts"
          ∧ (cdContains c7db (browserKeyTag ++ "") = false
             ∨ ∃ r ∈ c7rounds, r.accepted = true ∧ r.text = "" ∧ r.overwrite = true)) :=
  storeKey_cancel_atomic "newkey" "ts" c7db c7rounds "" c7db (by rfl)

/-- Every string contains the empty string (as in `QString::contains`). -/
theorem listSub_nil : ∀ l : List Char, listSub [] l = true := by
  intro l
  cases l with
  | nil => rfl
  | cons x xs => rfl

/-- `strContains s empty` is true for every `s`. -/
theorem strContains_empty (s : String) : strContains s "" = true := listSub_nil s.data

/-- Chopping zero characters is the identity. -/
theorem qchop_zero (s : String) : qchop s 0 = s := by
  unfold qchop
  rw [Nat.sub_zero, List.take_length]

/-- Appending the empty string is the identity. -/
theorem strAppend_empty (s : String) : s ++ "" = s := by
  cases s with
  | mk data =>
    show String.mk (data ++ []) = String.mk data
    rw [List.append_nil]

/-- Claim C1 (code evaluation): the host-relaxation loop of the
multi-database `searchEntries` never affects the result — the loop body
scans with the unchanged `url`, so for every hostname and every iteration
budget the outcome equals the single, un-relaxed multi-store pass
(`hostname` is stripped by the loop condition but never consulted by the
scan).  Concretely, a request under `a.b.example.com` against a connected
store finds nothing even though three relaxation rounds run. -/
theorem searchEntries_relaxation_dead :
    (∀ (s : BrowserSettings) (dbs : List Database) (url submitUrl hostname : String)
      (fuel : Nat),
      searchEntriesLoop s dbs url submitUrl hostname fuel = scanDatabases s dbs url submitUrl)
    ∧ searchEntriesMulti demoSettings [] (some c1db) "https://a.b.example.com/login"
        "https://a.b.example.com/login" [("cid", "sharedkey")] = [] := by
  constructor
  · intro s dbs url submitUrl hostname fuel
    induction fuel generalizing hostname with
    | zero =>
      rw [searchEntriesLoop]
      split
      · rfl
      · rfl
    | succ f ih =>
      rw [searchEntriesLoop]
      split
      · dsimp only
        split
        · exact ih _
        · rfl
      · rfl
  · rfl

/-- Amended claim C5: `baseDomain` returns IP-literal hosts unchanged; but
for a hostname whose parsed host has no recognizable public suffix the
result is the last dot-separated label of the host — not the empty
string — because the suffix-containment test is made against the empty
suffix, which every string contains.  The empty string is produced only
when the parsed host itself is empty. -/
theorem baseDomain_ip_and_no_suffix :
    ∀ h : String,
      (isIPv4 h = true → baseDomain h = h)
      ∧ (isIPv4 h = false → topLevelDomain (fromUserInput h).host = "" →
          ¬((fromUserInput h).host = "") →
          baseDomain h = (splitOnChar '.' (fromUserInput h).host).getLastD "") := by
  intro h
  constructor
  · intro hip
    simp [baseDomain, hip]
  · intro hip htld hne
    have hc1 : ((fromUserInput h).host == "") = false := beq_eq_false_iff_ne.mpr hne
    have hlen : (("" : String)).data.length = 0 := rfl
    simp only [baseDomain, hip, Bool.false_eq_true, if_false, htld, strContains_empty,
      Bool.not_true, hc1, Bool.or_false, hlen, qchop_zero, strAppend_empty]

/-- Counterexample for C5: `foobar` has no recognizable public suffix, is
no IP literal, yet `baseDomain` returns `foobar`, not the empty string. -/
theorem baseDomain_no_suffix_counterexample :
    topLevelDomain (fromUserInput "foobar").host = "" ∧ isIPv4 "foobar" = false
      ∧ baseDomain "foobar" = "foobar" ∧ ¬(baseDomain "foobar" = "") := by
  decide

/-- Witness for C5 (amended): a concrete IP literal is unchanged and a
concrete suffix-less host evaluates to its last label. -/
theorem baseDomain_ip_and_no_suffix_witness :
    baseDomain "192.168.0.1" = "192.168.0.1"
      ∧ baseDomain "myhost" = (splitOnChar '.' (fromUserInput "myhost").host).getLastD "" :=
  ⟨(baseDomain_ip_and_no_suffix "192.168.0.1").1 (by decide),
   (baseDomain_ip_and_no_suffix "myhost").2 (by decide) (by decide) (by decide)⟩

set_option maxHeartbeats 2000000 in
/-- Amended claim C6: provided the exact-match candidate's parsed URL host
contains a dot or is `localhost` (otherwise the dotless-host guard forces
its score to 0), an entry whose normalized URL equals the submit URL
scores exactly 100 while every candidate whose normalized URL differs
from the submit URL — in particular every proper-prefix match — scores at
most 90, hence strictly less. -/
theorem sortPriority_exact_outranks :
    ∀ (e1 e2 : Entry) (host submitUrl baseSubmitUrl : String),
      entryURLOf e1 = submitUrl →
      (strContains (sortPriorityUrl e1).host "." = true ∨ (sortPriorityUrl e1).host = "localhost") →
      ¬(entryURLOf e2 = submitUrl) →
      sortPriority e1 host submitUrl baseSubmitUrl = 100
        ∧ sortPriority e2 host submitUrl baseSubmitUrl ≤ 90 := by
  intro e1 e2 host submitUrl baseSubmitUrl hexact hguard hne
  constructor
  · have hcond : ¬((!(strContains (sortPriorityUrl e1).host ".")
        && ¬((sortPriorityUrl e1).host = "localhost")) = true) := by
      rcases hguard with hg | hg
      · simp [hg]
      · simp [hg]
    rw [sortPriority, if_neg hcond, if_pos hexact.symm]
  · rw [sortPriority]
    generalize (sortPriorityUrl e2).host = hst
    generalize hb : baseEntryURLOf e2 = bu
    generalize hu : entryURLOf e2 = u
    rw [hu] at hne
    split_ifs with g1 g2 <;> try omega
    exact absurd g2.symm hne

/-- Counterexample for C6: on the dotless intranet host, the entry whose
URL exactly equals the submit URL and the entry matching only as a proper
prefix both score 0 — the exact match does not outrank the prefix-only
match. -/
theorem sortPriority_dotless_counterexample :
    entryURLOf c6entry1 = "https://intranet/login"
      ∧ qstartsWith "https://intranet/login" (entryURLOf c6entry2) = true
      ∧ ¬(entryURLOf c6entry2 = "https://intranet/login")
      ∧ sortPriority c6entry1 "intranet" "https://intranet/login" "https://intranet" = 0
      ∧ sortPriority c6entry2 "intranet" "https://intranet/login" "https://intranet" = 0
      ∧ ¬(sortPriority c6entry2 "intranet" "https://intranet/login" "https://intranet"
          < sortPriority c6entry1 "intranet" "https://intranet/login" "https://intranet") := by
  decide

/-- Witness for C6 (amended): on a dotted host the exact match scores 100
and the prefix-only match at most 90. -/
theorem sortPriority_exact_outranks_witness :
    sortPriority c6entry3 "mail.example.com" "https://mail.example.com/login"
        "https://mail.example.com" = 100
      ∧ sortPriority c6entry4 "mail.example.com" "https://mail.example.com/login"
        "https://mail.example.com" ≤ 90 :=
  sortPriority_exact_outranks c6entry3 c6entry4 "mail.example.com"
    "https://mail.example.com/login" "https://mail.example.com"
    (by decide) (Or.inl (by decide)) (by decide)

/-- The additional-URL step either leaves the list unchanged or appends
the entry when it was absent. -/
theorem auxStep_cases (s : BrowserSettings) (url su : String) (e : Entry)
    (a : List Entry) (kv : String × String) :
    auxStep s url su e a kv = a ∨ (e ∉ a ∧ auxStep s url su e a kv = a ++ [e]) := by
  unfold auxStep
  split
  · next h => exact Or.inr ⟨h.2.2, rfl⟩
  · exact Or.inl rfl

/-- The additional-URL loop never changes the count of a different
entry. -/
theorem count_auxFold_ne (s : BrowserSettings) (url su : String) (e x : Entry)
    (hx : ¬ x = e) :
    ∀ (kvs : List (String × String)) (a : List Entry),
      (kvs.foldl (auxStep s url su e) a).count x = a.count x := by
  intro kvs
  induction kvs with
  | nil => intro a; rfl
  | cons kv kvs ih =>
    intro a
    rw [List.foldl_cons]
    rcases auxStep_cases s url su e a kv with h | ⟨hm, h⟩
    · rw [h, ih]
    · rw [h, ih]
      simp [List.count_append, List.count_cons, hx]

/-- The additional-URL loop leaves the processed entry's count at 1 at
most (the `!entries.contains(entry)` guard blocks a second append). -/
theorem count_auxFold_le (s : BrowserSettings) (url su : String) (e : Entry) :
    ∀ (kvs : List (String × String)) (a : List Entry),
      (kvs.foldl (auxStep s url su e) a).count e ≤ max (a.count e) 1 := by
  intro kvs
  induction kvs with
  | nil => intro a; exact le_max_left _ _
  | cons kv kvs ih =>
    intro a
    rw [List.foldl_cons]
    rcases auxStep_cases s url su e a kv with h | ⟨hm, h⟩
    · rw [h]; exact ih a
    · rw [h]
      have h0 : a.count e = 0 := List.count_eq_zero.mpr hm
      have h1 : (a ++ [e]).count e = 1 := by simp [List.count_append, h0]
      calc (kvs.foldl (auxStep s url su e) (a ++ [e])).count e
          ≤ max ((a ++ [e]).count e) 1 := ih _
        _ = 1 := by rw [h1]; simp
        _ ≤ max (a.count e) 1 := le_max_right _ _

/-- `auxUrlScan` version of `count_auxFold_ne`. -/
theorem count_auxUrlScan_ne (s : BrowserSettings) (url su : String) (e x : Entry)
    (hx : ¬ x = e) (acc : List Entry) :
    (auxUrlScan s url su e acc).count x = acc.count x := by
  unfold auxUrlScan
  exact count_auxFold_ne s url su e x hx e.attributes acc

/-- `auxUrlScan` version of `count_auxFold_le`. -/
theorem count_auxUrlScan_le (s : BrowserSettings) (url su : String) (e : Entry)
    (acc : List Entry) :
    (auxUrlScan s url su e acc).count e ≤ max (acc.count e) 1 := by
  unfold auxUrlScan
  exact count_auxFold_le s url su e e.attributes acc

/-- Scanning an entry never changes the count of a different entry. -/
theorem count_scanEntry_ne (s : BrowserSettings) (url su : String) (x e : Entry)
    (hx : ¬ x = e) (acc : List Entry) :
    (scanEntry s url su acc e).count x = acc.count x := by
  unfold scanEntry
  split
  · rfl
  · dsimp only
    split
    · rw [List.count_append, count_auxUrlScan_ne s url su e x hx]
      simp [List.count_cons, hx]
    · exact count_auxUrlScan_ne s url su e x hx acc

/-- Scanning an entry adds at most 2 to its own count: at most one
guarded additional-URL append plus at most one unguarded primary-URL
append. -/
theorem count_scanEntry_le (s : BrowserSettings) (url su : String) (e : Entry)
    (acc : List Entry) :
    (scanEntry s url su acc e).count e ≤ acc.count e + 2 := by
  unfold scanEntry
  split
  · omega
  · dsimp only
    split
    · rw [List.count_append]
      have h1 := count_auxUrlScan_le s url su e acc
      have h2 : ([e].count e) = 1 := by simp
      omega
    · have h1 := count_auxUrlScan_le s url su e acc
      omega

/-- Folding the scan over an entry list adds at most twice the number of
occurrences of an entry to its count. -/
theorem count_entriesFold (s : BrowserSettings) (url su : String) (e0 : Entry) :
    ∀ (es : List Entry) (acc : List Entry),
      (es.foldl (scanEntry s url su) acc).count e0 ≤ acc.count e0 + 2 * es.count e0 := by
  intro es
  induction es with
  | nil => intro acc; simp
  | cons e es ih =>
    intro acc
    rw [List.foldl_cons]
    by_cases he : e = e0
    · subst he
      have h1 := count_scanEntry_le s url su e acc
      have h2 := ih (scanEntry s url su acc e)
      have h3 : (e :: es).count e = es.count e + 1 := by simp [List.count_cons]
      omega
    · have h1 := count_scanEntry_ne s url su e0 e (fun hh => he hh.symm) acc
      have h2 := ih (scanEntry s url su acc e)
      have h3 : (e :: es).count e0 = es.count e0 := by
        simp [List.count_cons, beq_iff_eq, Ne.symm he]
      omega

/-- Folding the scan over a group list adds at most twice the total
number of occurrences of an entry to its count. -/
theorem count_groupsFold (s : BrowserSettings) (url su : String) (e0 : Entry) :
    ∀ (gs : List KpGroup) (acc : List Entry),
      (gs.foldl (scanGroup s url su) acc).count e0
        ≤ acc.count e0 + 2 * ((gs.map (fun g => g.entries.count e0)).sum) := by
  intro gs
  induction gs with
  | nil => intro acc; simp
  | cons g gs ih =>
    intro acc
    rw [List.foldl_cons]
    have hsum : (((g :: gs).map (fun g => g.entries.count e0)).sum)
        = g.entries.count e0 + ((gs.map (fun g => g.entries.count e0)).sum) := by
      simp
    by_cases hskip : (g.recycled || !g.searchingEnabled) = true
    · have hg : scanGroup s url su acc g = acc := by
        unfold scanGroup; rw [if_pos hskip]
      rw [hg]
      have h2 := ih acc
      omega
    · have hg : scanGroup s url su acc g = g.entries.foldl (scanEntry s url su) acc := by
        unfold scanGroup; rw [if_neg hskip]
      rw [hg]
      have h1 := count_entriesFold s url su e0 g.entries acc
      have h2 := ih (g.entries.foldl (scanEntry s url su) acc)
      omega

/-- Counterexample for C4: an entry whose primary URL and whose `KP2A_URL`
auxiliary attribute both match the request is appended twice by a single
store scan — it does not appear at most once. -/
theorem searchEntriesDb_duplicate_counterexample :
    (searchEntriesDb demoSettings c4db "https://example.com/login"
        "https://example.com/login").count c4entry = 2
      ∧ ¬((searchEntriesDb demoSettings c4db "https://example.com/login"
        "https://example.com/login").count c4entry ≤ 1) := by
  decide

/-- Amended claim C4: in a single store scan, the auxiliary-URL loop
appends an entry at most once (its containment guard checks the result
list), but the primary-URL test runs afterwards without a guard and can
append the same entry again; hence an entry stored once in the store
appears at most twice — not at most once — in the scan result. -/
theorem searchEntriesDb_count_le_two :
    ∀ (s : BrowserSettings) (db : Database) (url submitUrl : String) (e : Entry),
      dbEntryOccurrences db e ≤ 1 →
      (searchEntriesDb s db url submitUrl).count e ≤ 2 := by
  intro s db url su e hocc
  unfold searchEntriesDb
  unfold dbEntryOccurrences at hocc
  cases hdb : db.rootGroup with
  | none => simp
  | some root =>
    rw [hdb] at hocc
    dsimp only at hocc ⊢
    have h1 := count_groupsFold s url su e (groupsRecursive root) []
    have h2 : ([] : List Entry).count e = 0 := rfl
    omega

/-- Witness for C4 (amended): the duplicate-producing store satisfies the
single-occurrence hypothesis and its scan count is within the bound. -/
theorem searchEntriesDb_count_le_two_witness :
    dbEntryOccurrences c4db c4entry ≤ 1
      ∧ (searchEntriesDb demoSettings c4db "https://example.com/login"
        "https://example.com/login").count c4entry ≤ 2 :=
  ⟨by decide,
   searchEntriesDb_count_le_two demoSettings c4db "https://example.com/login"
     "https://example.com/login" c4entry (by decide)⟩
